import Mathlib

/-!
Verification of the code-review-assistant core: a shallow embedding of
src/code_review_assistant/tools.py (structural extractor, naming checker,
style scorer) with theorems settling the spec claims.

Modelling conventions:
* Python AST statement nodes are the inductive `Stmt`.  Following CPython's
  `ast` class hierarchy, `AsyncFunctionDef` is a distinct constructor and is
  NOT a `FunctionDef` (in CPython, `isinstance(async_node, ast.FunctionDef)`
  is `False`).  Node `lineno` is 1-based and `col_offset` is 0-based, exactly
  as CPython's parser produces them.
* `ast.get_docstring node is not None` is modelled by the node carrying an
  `Option String` docstring field filled by the parser.
* Decorator and base-class expressions are modelled by `PyName`: either a
  simple identifier (`ast.Name`, with its `id`) or any other expression form.
* `ast.walk` is breadth-first (queue-based); `walk` below computes the same
  level order of statement nodes.  Expression nodes interleaved by the real
  walk never contain statement nodes, so the relative order of function,
  class and import nodes is preserved.
* Python `str` operations are modelled on Lean `String`; identifier
  characters are ASCII, for which `String.toLower`, `Char.isUpper` and
  friends agree with Python's `str.lower` / `str.isupper`.
* The external linter (pycodestyle) and its textual-output parsing are
  abstracted: the scoring pipeline takes the already-parsed list of linter
  violations as an argument, per the spec's external-collaborator contract.
-/

/-- A decorator or base-class expression: a simple identifier (ast.Name)
or any more complex expression form. -/
inductive PyName where
  | ident (id : String)
  | complexExpr
deriving DecidableEq, Repr

/-- Python statement nodes, restricted to the shapes tools.py inspects.
`other` stands for any other statement; compound statements keep their
nested statement bodies so the walk can descend into them. -/
inductive Stmt where
  | functionDef (name : String) (args : List String) (lineno : Nat)
      (colOffset : Nat) (docstring : Option String)
      (decorators : List PyName) (body : List Stmt)
  | asyncFunctionDef (name : String) (args : List String) (lineno : Nat)
      (colOffset : Nat) (docstring : Option String)
      (decorators : List PyName) (body : List Stmt)
  | classDef (name : String) (lineno : Nat) (colOffset : Nat)
      (docstring : Option String) (bases : List PyName) (body : List Stmt)
  | importStmt (aliases : List (String × Option String))
  | importFrom (module : Option String) (names : List String) (level : Nat)
  | other (body : List Stmt)

/-- The statement children of a node, as `ast.iter_child_nodes` yields them
(only statement children matter: expressions contain no statements). -/
def Stmt.children : Stmt → List Stmt
  | .functionDef _ _ _ _ _ _ b => b
  | .asyncFunctionDef _ _ _ _ _ _ b => b
  | .classDef _ _ _ _ _ b => b
  | .importStmt _ => []
  | .importFrom _ _ _ => []
  | .other b => b

mutual

/-- Number of statement nodes in a subtree (used as walk fuel). -/
def Stmt.size : Stmt → Nat
  | .functionDef _ _ _ _ _ _ b => 1 + sizeList b
  | .asyncFunctionDef _ _ _ _ _ _ b => 1 + sizeList b
  | .classDef _ _ _ _ _ b => 1 + sizeList b
  | .importStmt _ => 1
  | .importFrom _ _ _ => 1
  | .other b => 1 + sizeList b

/-- Total number of statement nodes in a forest. -/
def sizeList : List Stmt → Nat
  | [] => 0
  | s :: ss => Stmt.size s + sizeList ss

end

/-- Level-order traversal with explicit fuel: emit the current frontier,
then recurse on the concatenation of all children. -/
def walkAux : Nat → List Stmt → List Stmt
  | _, [] => []
  | 0, l => l
  | fuel + 1, l => l ++ walkAux fuel (l.flatMap Stmt.children)

/-- `ast.walk` over a module body: breadth-first enumeration of every
statement node.  `sizeList m` levels of fuel always suffice because each
non-empty frontier strictly shrinks the remaining node count. -/
def walk (m : List Stmt) : List Stmt := walkAux (sizeList m) m

theorem sizeList_append (a b : List Stmt) :
    sizeList (a ++ b) = sizeList a + sizeList b := by
  induction a with
  | nil => simp [sizeList]
  | cons s ss ih =>
    simp only [List.cons_append, sizeList, List.append_eq, ih]
    omega

theorem Stmt.size_pos (s : Stmt) : 0 < s.size := by
  cases s <;> simp only [Stmt.size] <;> omega

theorem sizeList_children (s : Stmt) :
    sizeList s.children + 1 = s.size := by
  cases s <;> simp only [Stmt.children, Stmt.size, sizeList] <;> omega

theorem sizeList_flatMap_children (l : List Stmt) :
    sizeList (l.flatMap Stmt.children) + l.length = sizeList l := by
  induction l with
  | nil => simp [sizeList]
  | cons s ss ih =>
    simp only [List.flatMap_cons, sizeList_append, sizeList, List.length_cons]
    have := sizeList_children s
    omega

/-- With enough fuel, the fuel argument is irrelevant: `walkAux` computes
the true level-order traversal. -/
theorem walkAux_fuel (fuel fuel' : Nat) (l : List Stmt)
    (h : sizeList l ≤ fuel) (h' : sizeList l ≤ fuel') :
    walkAux fuel l = walkAux fuel' l := by
  induction fuel using Nat.strong_induction_on generalizing fuel' l with
  | _ fuel ih =>
    match l with
    | [] => cases fuel <;> cases fuel' <;> simp [walkAux]
    | s :: ss =>
      have hpos : 0 < sizeList (s :: ss) := by
        have := Stmt.size_pos s
        simp [sizeList]; omega
      match fuel, fuel' with
      | f + 1, f' + 1 =>
        have hflat := sizeList_flatMap_children (s :: ss)
        rw [List.length_cons] at hflat
        have hle : sizeList ((s :: ss).flatMap Stmt.children) ≤ f := by omega
        have hle' : sizeList ((s :: ss).flatMap Stmt.children) ≤ f' := by
          omega
        simp only [walkAux]
        rw [ih f (by omega) f' _ hle hle']
      | 0, _ => omega
      | _ + 1, 0 => omega

/-- Unfolding rule for the walk of a non-empty frontier. -/
theorem walk_eq_append (l : List Stmt) :
    walk l = l ++ walk (l.flatMap Stmt.children) := by
  match l with
  | [] => simp [walk, sizeList, walkAux]
  | s :: ss =>
    have hpos : 0 < sizeList (s :: ss) := by
      have := Stmt.size_pos s
      simp [sizeList]; omega
    have hflat := sizeList_flatMap_children (s :: ss)
    rw [List.length_cons] at hflat
    unfold walk
    match hf : sizeList (s :: ss) with
    | 0 => omega
    | f + 1 =>
      simp only [walkAux]
      congr 1
      exact walkAux_fuel f _ _ (by omega) (le_refl _)

/-- One reported style or naming violation (tools.py issue dicts). -/
structure Violation where
  line : Nat
  column : Nat
  code : String
  message : String
deriving DecidableEq, Repr

/-- An apostrophe character, used inside violation messages. -/
def apos : String := "\x27"

/-- Python name.startswith on a one-character pattern: the first character
matches (false on the empty string). -/
def startsWithUnderscore (s : String) : Bool :=
  match s.data with
  | c :: _ => c == '_'
  | [] => false

/-- Python str.lower, character by character (ASCII identifiers). -/
def pyLower (s : String) : String := ⟨s.data.map Char.toLower⟩

/-- Python name[0].isupper() for a non-empty name (parsed identifiers are
never empty; the empty-string value here is immaterial). -/
def firstIsUpper (s : String) : Bool :=
  match s.data with
  | c :: _ => c.isUpper
  | [] => false

/-- Python underscore-membership test on a name. -/
def containsUnderscore (s : String) : Bool := s.data.contains '_'

/-- The naming violations a single node contributes
(the loop body of _check_naming_conventions, tools.py lines 317-335).
Only `FunctionDef` and `ClassDef` nodes match the isinstance checks;
async function definitions match neither. -/
def namingIssuesOf : Stmt → List Violation
  | .functionDef name _ lineno colOffset _ _ _ =>
      if ¬ startsWithUnderscore name ∧ pyLower name ≠ name then
        [{ line := lineno, column := colOffset, code := "N802",
           message := "N802 function name " ++ apos ++ name ++ apos ++
             " should be lowercase" }]
      else []
  | .classDef name lineno colOffset _ _ _ =>
      if ¬ (firstIsUpper name) ∨ containsUnderscore name then
        [{ line := lineno, column := colOffset, code := "N801",
           message := "N801 class name " ++ apos ++ name ++ apos ++
             " should use CapWords convention" }]
      else []
  | _ => []

/-- _check_naming_conventions (tools.py lines 313-337): walk the tree and
collect naming violations in traversal order. -/
def _check_naming_conventions (tree : List Stmt) : List Violation :=
  (walk tree).flatMap namingIssuesOf

/-- The fixed deduction-weight table of _calculate_style_score
(tools.py lines 346-358). -/
def weights : List (String × Nat) :=
  [("E1", 10), ("E2", 3), ("E3", 5), ("E4", 8), ("E5", 5), ("E7", 7),
   ("E9", 10), ("W2", 2), ("W3", 2), ("W5", 3), ("N8", 7)]

/-- weights.get(code_prefix, 3): table lookup with default 3. -/
def weightOf (cat : String) : Nat := (weights.lookup cat).getD 3

/-- The deduction one violation contributes (tools.py lines 362-363):
the first two characters of its code, or the literal category "E2" when
the code is shorter than two characters. -/
def violationWeight (v : Violation) : Nat :=
  weightOf (if v.code.length ≥ 2 then v.code.take 2 else "E2")

/-- total_deduction: unconditional sum of per-violation weights. -/
def totalDeduction (issues : List Violation) : Nat :=
  (issues.map violationWeight).sum

/-- _calculate_style_score (tools.py lines 340-367). -/
def _calculate_style_score (issues : List Violation) : Int :=
  if issues.isEmpty then 100
  else max 0 (100 - min (totalDeduction issues : Int) 100)

/-- One entry of the extractor's functions list (tools.py lines 114-122).
In the source, is_async is computed as isinstance(node, ast.AsyncFunctionDef)
on a node that already passed isinstance(node, ast.FunctionDef). -/
structure FunctionInfo where
  name : String
  args : List String
  lineno : Nat
  has_docstring : Bool
  is_async : Bool
  decorators : List String
deriving DecidableEq, Repr

/-- One entry of the extractor's classes list (tools.py lines 134-141). -/
structure ClassInfo where
  name : String
  lineno : Nat
  methods : List String
  has_docstring : Bool
  base_classes : List String
deriving DecidableEq, Repr

/-- One entry of the extractor's imports list (tools.py lines 144-157):
a plain-import record carries one module and optional alias, a from-import
record carries the module (empty when absent), all names, and the level. -/
inductive ImportInfo where
  | imp (module : String) (aliasName : Option String)
  | fromImp (module : String) (names : List String) (level : Nat)
deriving DecidableEq, Repr

/-- Whether a node is an ast.FunctionDef (async definitions are a separate
class in CPython and do not match). -/
def Stmt.isFunctionDef : Stmt → Bool
  | .functionDef .. => true
  | _ => false

/-- Whether a node is an ast.AsyncFunctionDef. -/
def Stmt.isAsyncFunctionDef : Stmt → Bool
  | .asyncFunctionDef .. => true
  | _ => false

/-- The identifiers of the ast.Name entries of a decorator or base list
(the list comprehensions at tools.py lines 120-121 and 139-140). -/
def identsOf (l : List PyName) : List String :=
  l.filterMap fun d =>
    match d with
    | .ident i => some i
    | .complexExpr => none

/-- The FunctionInfo a walked node contributes, if any
(tools.py lines 113-123).  Only FunctionDef nodes match; the is_async
field repeats the source's isinstance(node, ast.AsyncFunctionDef) check
on the matched node. -/
def functionInfoOf : Stmt → Option FunctionInfo
  | n@(.functionDef name args lineno _ doc decos _) =>
      some { name := name, args := args, lineno := lineno,
             has_docstring := doc.isSome,
             is_async := n.isAsyncFunctionDef,
             decorators := identsOf decos }
  | _ => none

/-- The ClassInfo a walked node contributes, if any
(tools.py lines 128-142).  Methods are the names of FunctionDef statements
directly in the class body. -/
def classInfoOf : Stmt → Option ClassInfo
  | .classDef name lineno _ doc bases body =>
      some { name := name, lineno := lineno,
             methods := body.filterMap fun item =>
               match item with
               | .functionDef mname _ _ _ _ _ _ => some mname
               | _ => none,
             has_docstring := doc.isSome,
             base_classes := identsOf bases }
  | _ => none

/-- The ImportInfo records a walked node contributes
(tools.py lines 144-157): one record per alias of a plain import,
one single record for a from-import. -/
def importInfosOf : Stmt → List ImportInfo
  | .importStmt aliases =>
      aliases.map fun a => ImportInfo.imp a.1 a.2
  | .importFrom module names level =>
      [ImportInfo.fromImp (module.getD "") names level]
  | _ => []

/-- The docstring excerpt a walked node contributes
(tools.py lines 125-126). -/
def docstringOf : Stmt → Option String
  | .functionDef name _ _ _ (some doc) _ _ =>
      some (name ++ ": " ++ doc.take 50 ++ "...")
  | _ => none

/-- Whether the pattern occurs as a substring (Python `in` on str). -/
def containsSubstr (s pat : String) : Bool :=
  s.data.tails.any fun t => pat.data.isPrefixOf t

/-- Physical line count as Python str.splitlines computes it
(a trailing newline does not open a final empty line). -/
def splitlinesCount (s : String) : Nat :=
  (s.splitOn "\n").length - (if s.endsWith "\n" ∨ s = "" then 1 else 0)

/-- The metrics dict of the extractor (tools.py lines 164-172).
avg_function_length is a float in the source and is omitted here;
no claim concerns it. -/
structure Metrics where
  line_count : Nat
  function_count : Nat
  class_count : Nat
  import_count : Nat
  has_main : Bool
  has_if_main : Bool
deriving DecidableEq, Repr

/-- The analysis dict returned by _extract_code_structure. -/
structure Analysis where
  functions : List FunctionInfo
  classes : List ClassInfo
  imports : List ImportInfo
  docstrings : List String
  metrics : Metrics
deriving DecidableEq, Repr

/-- _extract_code_structure (tools.py lines 102-173): walk the tree once,
collecting functions, classes, imports and docstrings, then derive metrics. -/
def _extract_code_structure (tree : List Stmt) (code : String) : Analysis :=
  let functions := (walk tree).filterMap functionInfoOf
  let classes := (walk tree).filterMap classInfoOf
  let imports := (walk tree).flatMap importInfosOf
  let docstrings := (walk tree).filterMap docstringOf
  { functions := functions, classes := classes, imports := imports,
    docstrings := docstrings,
    metrics :=
      { line_count := splitlinesCount code,
        function_count := functions.length,
        class_count := classes.length,
        import_count := imports.length,
        has_main := functions.any fun f => f.name == "main",
        has_if_main := containsSubstr code "__main__" } }

/-- The success dict of _perform_style_check (tools.py lines 300-306). -/
structure ScoreResult where
  status : String
  score : Int
  issue_count : Nat
  issues : List Violation
  summary : String
deriving DecidableEq, Repr

/-- The merge-and-score core of _perform_style_check
(tools.py lines 271-306).  The external linter's parsed violations are
passed in (spec section 6: the linter is an external collaborator);
tree? is the result of the inner ast.parse, none when it raised
SyntaxError, in which case naming checks are skipped. -/
def _perform_style_check (linterIssues : List Violation)
    (tree? : Option (List Stmt)) : ScoreResult :=
  let issues := linterIssues ++
    (match tree? with
     | some tree => _check_naming_conventions tree
     | none => [])
  let score := _calculate_style_score issues
  { status := "success", score := score,
    issue_count := issues.length,
    issues := issues.take 10,
    summary := "Style score: " ++ toString score ++ "/100 with " ++
      toString issues.length ++ " violations" }

/-- The value check_code_style returns to its caller: either the inner
result dict, or the error dict of the except branch. -/
structure StyleCheckResponse where
  status : String
  score : Int
  message : Option String
  issue_count : Option Nat
  issues : List Violation
deriving DecidableEq, Repr

/-- check_code_style (tools.py lines 191-243): run the inner style check;
a raised exception (modelled as Except.error with the exception text) is
caught and turned into an error dict with score 0 and an explanatory
message, never re-raised. -/
def check_code_style (inner : Except String ScoreResult) :
    StyleCheckResponse :=
  match inner with
  | .ok r =>
      { status := r.status, score := r.score, message := none,
        issue_count := some r.issue_count, issues := r.issues }
  | .error e =>
      { status := "error", score := 0,
        message := some ("Style check failed: " ++ e),
        issue_count := none, issues := [] }

/-- A SyntaxError raised by ast.parse (1-based line, offset, message). -/
structure SyntaxErr where
  lineno : Nat
  offset : Nat
  msg : String
deriving DecidableEq, Repr

/-- The tagged dict analyze_code_structure returns
(tools.py lines 47-51, 71-76, 84-90, 95-99). -/
inductive AnalyzeResult where
  | success (analysis : Analysis) (summary : String)
  | inputError (message : String)
  | syntaxError (message : String) (line : Nat) (offset : Nat)
  | parseError (message : String)
deriving DecidableEq, Repr

/-- Whether an AnalyzeResult carries status "error". -/
def AnalyzeResult.isError : AnalyzeResult → Bool
  | .success _ _ => false
  | _ => true

/-- analyze_code_structure (tools.py lines 29-99): reject absent input
before parsing (`if not code` — the empty string is falsy), then parse
(the parser is the external ast.parse, passed as an argument) and extract;
a SyntaxError becomes a tagged error result. -/
def analyze_code_structure
    (parse : String → Except SyntaxErr (List Stmt)) (code : String) :
    AnalyzeResult :=
  if code = "" then
    .inputError "No code provided or invalid input"
  else
    match parse code with
    | .error e =>
        .syntaxError ("Syntax error at line " ++ toString e.lineno ++ ": " ++
          e.msg) e.lineno e.offset
    | .ok tree =>
        let analysis := _extract_code_structure tree code
        .success analysis
          ("Found " ++ toString analysis.metrics.function_count ++
           " functions and " ++ toString analysis.metrics.class_count ++
           " classes")

/-! Sample inputs shared by the claim theorems. -/

/-- A function definition node with the given name at line 1, column 0
(what ast.parse produces for a one-function module). -/
def sampleFunc (name : String) : Stmt :=
  Stmt.functionDef name [] 1 0 none [] [Stmt.other []]

/-- A class definition node with the given name at line 1, column 0. -/
def sampleClass (name : String) : Stmt :=
  Stmt.classDef name 1 0 none [] [Stmt.other []]

/-- Fifteen violations with an unknown-category code, as in the spec's
manufactured-violations scenario. -/
def manufactured15 : List Violation :=
  List.replicate 15 ⟨1, 1, "X99", "manufactured style violation"⟩

/-- C1: for every violation list the style score equals
max(0, 100 - min(total_deduction, 100)); the empty list scores exactly
100, and every score lies in the closed interval from 0 to 100. -/
theorem c1_score_formula (issues : List Violation) :
    _calculate_style_score issues =
      max 0 (100 - min (totalDeduction issues : Int) 100) ∧
    _calculate_style_score [] = 100 ∧
    0 ≤ _calculate_style_score issues ∧
    _calculate_style_score issues ≤ 100 := by
  have hformula : _calculate_style_score issues =
      max 0 (100 - min (totalDeduction issues : Int) 100) := by
    by_cases h : issues = []
    · subst h
      simp [_calculate_style_score, totalDeduction]
    · simp [_calculate_style_score, h]
  have hd : (0 : Int) ≤ (totalDeduction issues : Int) := Int.natCast_nonneg _
  refine ⟨hformula, by simp [_calculate_style_score], ?_, ?_⟩
  · rw [hformula]; omega
  · rw [hformula]; omega

/-- C2: each violation deducts the table weight of the two-character
category of its code (E1 10, E2 3, E3 5, E4 8, E5 5, E7 7, E9 10, W2 2,
W3 2, W5 3, N8 7), unknown categories deduct the default 3, deductions
sum with no per-category cap, and 15 unknown-category violations give
total_deduction 45, score 55, issue_count 15 and 10 reported issues. -/
theorem c2_deduction_table :
    (∀ v vs, totalDeduction (v :: vs) = violationWeight v + totalDeduction vs) ∧
    (∀ v : Violation, violationWeight v =
      weightOf (if v.code.length ≥ 2 then v.code.take 2 else "E2")) ∧
    (weightOf "E1" = 10 ∧ weightOf "E2" = 3 ∧ weightOf "E3" = 5 ∧
     weightOf "E4" = 8 ∧ weightOf "E5" = 5 ∧ weightOf "E7" = 7 ∧
     weightOf "E9" = 10 ∧ weightOf "W2" = 2 ∧ weightOf "W3" = 2 ∧
     weightOf "W5" = 3 ∧ weightOf "N8" = 7) ∧
    (∀ cat : String, cat ∉ weights.map Prod.fst → weightOf cat = 3) ∧
    (totalDeduction manufactured15 = 45 ∧
     (_perform_style_check manufactured15 (some [])).score = 55 ∧
     (_perform_style_check manufactured15 (some [])).issue_count = 15 ∧
     (_perform_style_check manufactured15 (some [])).issues.length = 10) := by
  refine ⟨?_, fun v => rfl, by decide, ?_, by decide⟩
  · intro v vs
    simp [totalDeduction]
  · intro cat hcat
    have hnone : weights.lookup cat = none := by
      rw [List.lookup_eq_none_iff]
      intro p hp
      rw [bne_iff_ne]
      intro he
      exact hcat (List.mem_map.mpr ⟨p, hp, he.symm⟩)
    simp [weightOf, hnone]

/-- C2 witness: the category X9 is absent from the table and deducts the
default 3. -/
theorem c2_witness : "X9" ∉ weights.map Prod.fst ∧ weightOf "X9" = 3 :=
  ⟨by decide, c2_deduction_table.2.2.2.1 "X9" (by decide)⟩

/-- C3: the reported issues are exactly the first 10 of the merged
sequence (linter violations in order, then naming violations in
traversal order), and issue_count is the untruncated merged length, with
exactly 10 reported whenever the merged length exceeds 10. -/
theorem c3_merge_and_truncate (linterIssues : List Violation)
    (tree : List Stmt) :
    (_perform_style_check linterIssues (some tree)).issues =
      (linterIssues ++ _check_naming_conventions tree).take 10 ∧
    (_perform_style_check linterIssues (some tree)).issue_count =
      (linterIssues ++ _check_naming_conventions tree).length ∧
    (10 < (linterIssues ++ _check_naming_conventions tree).length →
      (_perform_style_check linterIssues (some tree)).issues.length = 10) := by
  refine ⟨rfl, rfl, ?_⟩
  intro h
  simp only [_perform_style_check]
  rw [List.length_take]
  omega

/-- C3 witness: with 15 merged violations, exactly 10 are reported. -/
theorem c3_witness :
    10 < (manufactured15 ++ _check_naming_conventions []).length ∧
    (_perform_style_check manufactured15 (some [])).issues.length = 10 :=
  ⟨by decide, (c3_merge_and_truncate manufactured15 []).2.2 (by decide)⟩

/-- The parse tree of a module declaring a single asynchronous function
named CamelCase (the C4 failing input). -/
def asyncCamelTree : List Stmt :=
  [Stmt.asyncFunctionDef "CamelCase" [] 1 0 none [] [Stmt.other []]]

/-- C4: the claimed exactly-when fails on the code for asynchronously
declared functions: ast.AsyncFunctionDef matches neither isinstance
branch of _check_naming_conventions (tools.py lines 318 and 327 - the
same isinstance slip as in the extractor), so an async function named
CamelCase, whose name neither starts with an underscore nor is entirely
lowercase, is never flagged, while the same name declared with a plain
def receives N802.  For synchronous function definitions and for class
definitions the stated rules do hold, including all six examples. -/
theorem c4_async_naming_missed :
    (∀ name args lineno colOffset doc decos body,
      namingIssuesOf
        (Stmt.asyncFunctionDef name args lineno colOffset doc decos body)
        = []) ∧
    (startsWithUnderscore "CamelCase" = false ∧
     (pyLower "CamelCase" == "CamelCase") = false ∧
     _check_naming_conventions asyncCamelTree = []) ∧
    (∀ name args lineno colOffset doc decos body,
      (namingIssuesOf
        (Stmt.functionDef name args lineno colOffset doc decos body)).isEmpty =
        (startsWithUnderscore name || (pyLower name == name))) ∧
    (∀ name lineno colOffset doc bases body,
      (namingIssuesOf
        (Stmt.classDef name lineno colOffset doc bases body)).isEmpty =
        (firstIsUpper name && !(containsUnderscore name))) ∧
    (_check_naming_conventions [sampleFunc "CamelCase"]).map Violation.code =
      ["N802"] ∧
    _check_naming_conventions [sampleFunc "_CamelCase"] = [] ∧
    _check_naming_conventions [sampleFunc "snake_case"] = [] ∧
    (_check_naming_conventions [sampleClass "snake_class"]).map Violation.code =
      ["N801"] ∧
    (_check_naming_conventions [sampleClass "lowercase"]).map Violation.code =
      ["N801"] ∧
    _check_naming_conventions [sampleClass "CapWords"] = [] := by
  refine ⟨fun name args lineno colOffset doc decos body => rfl,
    ⟨by decide, by decide, by decide⟩, ?_, ?_, by decide, by decide,
    by decide, by decide, by decide, by decide⟩
  · intro name args lineno colOffset doc decos body
    simp only [namingIssuesOf]
    split
    · rename_i h
      rcases h with ⟨h1, h2⟩
      rw [Bool.not_eq_true] at h1
      simp [List.isEmpty_cons, h1, beq_eq_false_iff_ne.mpr h2]
    · rename_i h
      simp only [List.isEmpty_nil]
      by_cases hs : startsWithUnderscore name
      · simp [hs]
      · have h2 : pyLower name = name := by
          by_contra h2
          exact h ⟨hs, h2⟩
        simp [h2]
  · intro name lineno colOffset doc bases body
    simp only [namingIssuesOf]
    split
    · rename_i h
      rcases h with h | h
      · rw [Bool.not_eq_true] at h
        simp [List.isEmpty_cons, h]
      · simp [List.isEmpty_cons, h]
    · rename_i h
      push_neg at h
      rcases h with ⟨hu, hnu⟩
      rw [ne_eq, Bool.not_eq_true] at hnu
      simp [List.isEmpty_nil, hu, hnu]

/-- The parse tree of the one-line module declaring a single asynchronous
function f with a pass body. -/
def asyncTree : List Stmt :=
  [Stmt.asyncFunctionDef "f" [] 1 0 none [] [Stmt.other []]]

/-- The source text of asyncTree. -/
def asyncSource : String := "async def f():\n    pass\n"

/-- C5: contrary to the claim, the extractor records no FunctionInfo at
all for an asynchronously declared function: the isinstance check on
ast.FunctionDef does not match ast.AsyncFunctionDef nodes, so such
definitions are never visited as functions, and the is_async field of
every recorded FunctionInfo is false. -/
theorem c5_async_skipped :
    (_extract_code_structure asyncTree asyncSource).functions = [] ∧
    (_extract_code_structure asyncTree asyncSource).metrics.function_count
      = 0 ∧
    ∀ tree code, ((_extract_code_structure tree code).functions.all
      fun fi => !fi.is_async) = true := by
  refine ⟨by decide, by decide, ?_⟩
  intro tree code
  rw [List.all_eq_true]
  intro fi hfi
  simp only [_extract_code_structure, List.mem_filterMap] at hfi
  obtain ⟨s, -, hs⟩ := hfi
  cases s <;> simp only [functionInfoOf, Option.some.injEq,
    reduceCtorEq] at hs
  subst hs
  rfl

/-- The parse tree of a module whose only definition named main is a
method of a class. -/
def methodMainTree : List Stmt :=
  [Stmt.classDef "Handler" 1 0 none []
    [Stmt.functionDef "main" ["self"] 2 4 none [] [Stmt.other []]]]

/-- The source text of methodMainTree. -/
def methodMainSource : String :=
  "class Handler:\n    def main(self):\n        pass\n"

/-- C6 counterexample: on a module whose only definition named main is a
method (no top-level function at all), has_main is nevertheless true,
refuting the claim that has_main holds only for a top-level main. -/
theorem c6_counterexample :
    (_extract_code_structure methodMainTree methodMainSource).metrics.has_main
      = true ∧
    (methodMainTree.all fun s => !s.isFunctionDef) = true := by
  constructor <;> decide

theorem any_main_filterMap (l : List Stmt) :
    ((l.filterMap functionInfoOf).any fun f => f.name == "main") =
      (l.any fun s =>
        match s with
        | .functionDef name _ _ _ _ _ _ => name == "main"
        | _ => false) := by
  induction l with
  | nil => rfl
  | cons s ss ih =>
    cases s <;> simp [functionInfoOf, List.filterMap_cons, List.any_cons, ih]

/-- C6 amended: has_main is true exactly when some function definition
anywhere in the walked tree (top-level, method, or nested; asynchronous
definitions excluded) is literally named main. -/
theorem c6_has_main_anywhere (tree : List Stmt) (code : String) :
    (_extract_code_structure tree code).metrics.has_main =
      ((walk tree).any fun s =>
        match s with
        | .functionDef name _ _ _ _ _ _ => name == "main"
        | _ => false) := by
  simp only [_extract_code_structure]
  exact any_main_filterMap (walk tree)

/-- The parse tree of the one-statement module importing two modules
with a single plain import statement. -/
def twoAliasImportTree : List Stmt :=
  [Stmt.importStmt [("os", none), ("sys", none)]]

/-- C7 counterexample: a single plain import statement naming two modules
yields two ImportInfo records, not the one record per statement the claim
asserts. -/
theorem c7_counterexample :
    (_extract_code_structure twoAliasImportTree "import os, sys\n").imports =
      [ImportInfo.imp "os" none, ImportInfo.imp "sys" none] ∧
    (_extract_code_structure twoAliasImportTree
      "import os, sys\n").imports.length = 2 := by
  constructor <;> decide

/-- C7 amended: a plain import statement yields one record per imported
alias (in order), while a from-import statement yields exactly one record
carrying the full ordered name sequence. -/
theorem c7_import_records (aliases : List (String × Option String))
    (module : Option String) (names : List String) (level : Nat)
    (code code2 : String) :
    (_extract_code_structure [Stmt.importStmt aliases] code).imports =
      (aliases.map fun a => ImportInfo.imp a.1 a.2) ∧
    (_extract_code_structure [Stmt.importStmt aliases] code).imports.length =
      aliases.length ∧
    (_extract_code_structure [Stmt.importFrom module names level]
      code2).imports = [ImportInfo.fromImp (module.getD "") names level] := by
    refine ⟨?_, ?_, ?_⟩ <;>
      simp [_extract_code_structure, walk, sizeList, Stmt.size, walkAux,
        Stmt.children, importInfosOf]

/-- The parse tree of a module defining one function named CamelCase at
line 1, column 0. -/
def camelTree : List Stmt :=
  [Stmt.functionDef "CamelCase" [] 1 0 none [] [Stmt.other []]]

/-- C8 counterexample: the naming checker copies the 0-based AST column
offset into the violation, so the merged issues of a module defining
CamelCase at top level contain a violation with column 0 - not 1-based. -/
theorem c8_counterexample :
    (_check_naming_conventions camelTree).map Violation.column = [0] ∧
    ((_perform_style_check [] (some camelTree)).issues.all
      fun v => decide (1 ≤ v.column)) = false := by
  constructor <;> decide

/-- Whether a node's recorded line number is 1-based (parsed trees always
satisfy this: CPython linenos start at 1). -/
def Stmt.lineOk : Stmt → Bool
  | .functionDef _ _ lineno _ _ _ _ => decide (1 ≤ lineno)
  | .asyncFunctionDef _ _ lineno _ _ _ _ => decide (1 ≤ lineno)
  | .classDef _ lineno _ _ _ _ => decide (1 ≤ lineno)
  | _ => true

/-- C8 amended: if every linter-parsed violation carries a 1-based line
and column (the modelled linter contract) and the tree's nodes carry
1-based line numbers (as parsed trees do), then every merged issue has a
1-based line number; naming-checker issues, however, carry the raw
0-based column offset, which the counterexample shows can be 0. -/
theorem c8_lines_one_based (linterIssues : List Violation)
    (tree : List Stmt)
    (hl : (linterIssues.all fun v =>
      decide (1 ≤ v.line) && decide (1 ≤ v.column)) = true)
    (ht : ((walk tree).all Stmt.lineOk) = true) :
    ((_perform_style_check linterIssues (some tree)).issues.all
      fun v => decide (1 ≤ v.line)) = true := by
  rw [List.all_eq_true] at hl ht ⊢
  intro v hv
  simp only [_perform_style_check] at hv
  have hv' := List.take_subset _ _ hv
  rw [List.mem_append] at hv'
  rcases hv' with hlin | hnam
  · have := hl v hlin
    rw [Bool.and_eq_true] at this
    exact this.1
  · rw [_check_naming_conventions, List.mem_flatMap] at hnam
    obtain ⟨s, hsmem, hvs⟩ := hnam
    have hok := ht s hsmem
    cases s <;> simp only [namingIssuesOf] at hvs
    case functionDef name args lineno colOffset doc decos body =>
      split at hvs
      · rw [List.mem_singleton] at hvs
        subst hvs
        exact hok
      · exact absurd hvs (List.not_mem_nil v)
    case classDef name lineno colOffset doc bases body =>
      split at hvs
      · rw [List.mem_singleton] at hvs
        subst hvs
        exact hok
      · exact absurd hvs (List.not_mem_nil v)
    all_goals exact absurd hvs (List.not_mem_nil v)

/-- A well-formed linter violation used to instantiate the C8 theorem. -/
def demoLinterIssue : Violation :=
  ⟨2, 5, "E225", "E225 missing whitespace around operator"⟩

/-- C8 witness: the amended theorem applied to one linter violation and
the CamelCase module. -/
theorem c8_witness :
    ((_perform_style_check [demoLinterIssue] (some camelTree)).issues.all
      fun v => decide (1 ≤ v.line)) = true :=
  c8_lines_one_based [demoLinterIssue] camelTree (by decide) (by decide)

/-- C9: when the inner style check raises (modelled as an Except error),
check_code_style returns a tagged error dict with score 0 and an
explanatory message instead of propagating the exception. -/
theorem c9_error_contained (e : String) :
    (check_code_style (.error e)).status = "error" ∧
    (check_code_style (.error e)).score = 0 ∧
    (check_code_style (.error e)).message =
      some ("Style check failed: " ++ e) := by
  exact ⟨rfl, rfl, rfl⟩

/-- C10: the empty string is rejected before parsing - whatever the
parser would do, analyze_code_structure returns the tagged input-error
result, not a success with an all-zero summary. -/
theorem c10_empty_input_rejected
    (parse : String → Except SyntaxErr (List Stmt)) :
    analyze_code_structure parse "" =
      AnalyzeResult.inputError "No code provided or invalid input" ∧
    (analyze_code_structure parse "").isError = true := by
  have h : analyze_code_structure parse "" =
      AnalyzeResult.inputError "No code provided or invalid input" := by
    simp [analyze_code_structure]
  exact ⟨h, by rw [h]; rfl⟩
